import Mathlib

/-!
Shallow embedding of the timer-command logic of `src/commands/timer.ts`
(the `timerCommands` object of the clockify CLI).

Modelling conventions:
* JavaScript strings are modelled as `List Char` (`JStr`); `str` converts a
  Lean string literal.  JS truthiness of a string is non-emptiness, and an
  absent (`undefined`) optional field is `Option.none`, so a field that is
  "present or absent" in a loosely typed JS record becomes an `Option`.
* A wire timestamp is a `TimeStamp`: `text` is the ISO string stored on the
  entry, `ms` is its denotation `new Date(text).getTime()` in epoch
  milliseconds.  The clock is modelled with a fixed UTC offset of zero, so
  local calendar arithmetic (`Date.setHours`) becomes arithmetic on `ms`
  with floor division by the day/hour/minute lengths — exactly the `/` of
  `Int` in Lean, which is floor division for positive divisors.
* The external collaborators (remote API client, config store, the free-form
  `new Date(string)` parser) are parameters of the command models: project
  lists, the created-project result, "now", the default billable flag and the
  absolute-datetime parser `parseAbs` are all passed in explicitly.  A
  command's network *write* (startTimer / createTimeEntry / updateTimeEntry)
  is represented by the outcome constructor that carries the request payload;
  the refusal / error constructors carry no payload, so producing one of them
  is precisely "no write was issued".
-/

/-- A JavaScript string, modelled as its list of characters. -/
abbrev JStr := List Char

/-- Conversion from a Lean string literal to the `JStr` model. -/
def str (s : String) : JStr := s.data

/-- JS `String.prototype.toLowerCase`, per character. -/
def jsToLower (s : JStr) : JStr := s.map Char.toLower

/-- Helper for JS `hay.includes(needle)`: substring test on char lists. -/
def containsSub (needle hay : JStr) : Bool :=
  match hay with
  | [] => needle.isEmpty
  | _ :: t => needle.isPrefixOf hay || containsSub needle t

/-- JS truthiness of an optional string option (`undefined` and `""` are falsy). -/
def strTruthy (s : Option JStr) : Bool :=
  match s with
  | none => false
  | some v => !v.isEmpty

/-- A wire timestamp: the ISO string plus its `new Date(text).getTime()` value. -/
structure TimeStamp where
  text : JStr
  ms : Int
deriving DecidableEq

/-- Truthiness of `entry.timeInterval.end`: absent and the empty string are falsy. -/
def endTruthy (e : Option TimeStamp) : Bool :=
  match e with
  | none => false
  | some t => !t.text.isEmpty

/-- `timeInterval` of a time entry: start is always present, end may be absent. -/
structure TimeInterval where
  start : TimeStamp
  «end» : Option TimeStamp
deriving DecidableEq

/-- A time entry as returned by the remote collaborator. -/
structure TimeEntry where
  id : JStr
  description : JStr
  billable : Bool
  projectId : Option JStr
  taskId : Option JStr
  tagIds : Option (List JStr)
  timeInterval : TimeInterval
deriving DecidableEq

/-- A project record `{id, name}` from `getProjects`. -/
structure Project where
  id : JStr
  name : JStr
deriving DecidableEq

/-- The write-side payload sent to `startTimer` / `createTimeEntry` /
`updateTimeEntry`; optional fields are present-or-absent as in the JS record. -/
structure TimeEntryRequest where
  start : TimeStamp
  description : JStr
  billable : Bool
  «end» : Option TimeStamp := none
  projectId : Option JStr := none
  taskId : Option JStr := none
  tagIds : Option (List JStr) := none
deriving DecidableEq

/-- Modelled from the spec: `sanitizeInput` lives in `src/lib/utils`, which is
not among the provided sources; the spec (section 3) says descriptions are
"sanitized to strip control characters", so the model removes the ASCII
control characters (code points below 32, and 127). -/
def sanitizeInput (s : JStr) : JStr :=
  s.filter (fun c => !(c.toNat < 32 || c.toNat == 127))

/-- The openness test shared by start/stop/status:
`entry => !entry.timeInterval.end` (JS truthiness of the end field). -/
def isRunningEntry (e : TimeEntry) : Bool :=
  !endTruthy e.timeInterval.«end»

/-- `Math.round(d / 60000)` for an integer millisecond difference `d`:
JS `Math.round x = ⌊x + 1/2⌋`, so this is `⌊(d + 30000) / 60000⌋`. -/
def jsRound60000 (d : Int) : Int :=
  (d + 30000) / 60000

/-- `isoText.split('T')[0]`: the calendar-day prefix of an ISO timestamp. -/
def dayOf (t : TimeStamp) : JStr :=
  t.text.takeWhile (fun c => c != 'T')

/-- The character class of the regex `\d`. -/
def isDig (c : Char) : Bool :=
  48 ≤ c.toNat && c.toNat ≤ 57

/-- Numeric value of a digit character. -/
def digitVal (c : Char) : Nat := c.toNat - 48

/-- The regex match `text.match(/^(\d{1,2}):(\d{2})$/)` together with
`parseInt` of both capture groups. -/
def matchHHMM (s : JStr) : Option (Nat × Nat) :=
  match s with
  | [h1, c, m1, m2] =>
    if isDig h1 && (c == ':') && isDig m1 && isDig m2 then
      some (digitVal h1, 10 * digitVal m1 + digitVal m2)
    else none
  | [h1, h2, c, m1, m2] =>
    if isDig h1 && isDig h2 && (c == ':') && isDig m1 && isDig m2 then
      some (10 * digitVal h1 + digitVal h2, 10 * digitVal m1 + digitVal m2)
    else none
  | _ => none

/-- `d.setHours(h, m, 0, 0)` on a date `t` (epoch ms, fixed zero offset):
midnight of `t`'s day plus the requested hours and minutes.  JS does not
range-check `h` and `m`; out-of-range values roll the date over. -/
def setHoursModel (t : Int) (h m : Nat) : Int :=
  (t / 86400000) * 86400000 + (h : Int) * 3600000 + (m : Int) * 60000

/-- The anchor-resolution step shared by `add` and `edit`: an `HH:MM` match is
placed on the reference date's day, anything else goes to the external
free-form `new Date(text)` parser `parseAbs`. -/
def resolveAnchor (text : JStr) (referenceMs : Int) (parseAbs : JStr → Int) : Int :=
  match matchHHMM text with
  | some (h, m) => setHoursModel referenceMs h m
  | none => parseAbs text

/-- Calendar-day index of an epoch-ms instant (fixed zero offset). -/
def dayIndex (t : Int) : Int := t / 86400000

/-- Hour-of-day of an epoch-ms instant. -/
def hourOfMs (t : Int) : Int := (t % 86400000) / 3600000

/-- Minute-of-hour of an epoch-ms instant. -/
def minuteOfMs (t : Int) : Int := (t % 3600000) / 60000

/-- Second-of-minute of an epoch-ms instant. -/
def secondOfMs (t : Int) : Int := (t % 60000) / 1000

/-- Millisecond-of-second of an epoch-ms instant. -/
def msPartOfMs (t : Int) : Int := t % 1000

/-- Character of a single decimal digit value. -/
def digitChar (n : Int) : Char := Char.ofNat (48 + (n % 10).toNat)

/-- Two-digit zero-padded decimal field. -/
def pad2 (n : Int) : JStr := [digitChar (n / 10), digitChar n]

/-- Three-digit zero-padded decimal field. -/
def pad3 (n : Int) : JStr := [digitChar (n / 100), digitChar (n / 10), digitChar n]

/-- Four-digit zero-padded decimal field. -/
def pad4 (n : Int) : JStr :=
  [digitChar (n / 1000), digitChar (n / 100), digitChar (n / 10), digitChar n]

/-- Civil date (year, month, day) from a day number (days since 1970-01-01),
the standard era-based conversion with floor division. -/
def civilFromDays (z0 : Int) : Int × Int × Int :=
  let z := z0 + 719468
  let era := z / 146097
  let doe := z - era * 146097
  let yoe := (doe - doe / 1460 + doe / 36524 - doe / 146096) / 365
  let y := yoe + era * 400
  let doy := doe - (365 * yoe + yoe / 4 - yoe / 100)
  let mp := (5 * doy + 2) / 153
  let d := doy - (153 * mp + 2) / 5 + 1
  let m := mp + (if mp < 10 then 3 else -9)
  (if m ≤ 2 then y + 1 else y, m, d)

/-- `Date.prototype.toISOString` of an epoch-ms instant (zero offset). -/
def isoOfMs (ms : Int) : JStr :=
  let days := ms / 86400000
  let rem := ms - days * 86400000
  let ymd := civilFromDays days
  pad4 ymd.1 ++ ['-'] ++ pad2 ymd.2.1 ++ ['-'] ++ pad2 ymd.2.2 ++ ['T'] ++
    pad2 (rem / 3600000) ++ [':'] ++ pad2 ((rem % 3600000) / 60000) ++ [':'] ++
    pad2 ((rem % 60000) / 1000) ++ ['.'] ++ pad3 (rem % 1000) ++ ['Z']

/-- A timestamp built from a computed epoch-ms value, as `toISOString` does. -/
def tsOfMs (ms : Int) : TimeStamp := { text := isoOfMs ms, ms := ms }

/-- The project-match predicate used by start/add/edit:
`p.name.toLowerCase().includes(q.toLowerCase()) || p.id === q`. -/
def projMatch (q : JStr) (p : Project) : Bool :=
  containsSub (jsToLower q) (jsToLower p.name) || p.id == q

/-- `projects.find(...)` with the shared match predicate. -/
def findProject (projects : List Project) (q : JStr) : Option Project :=
  projects.find? (projMatch q)

/-- Options consumed by `timerCommands.start`. -/
structure StartOptions where
  description : Option JStr := none
  billable : Option Bool := none
  project : Option JStr := none
deriving DecidableEq

/-- Outcome of `timerCommands.start`.  `started` is the single point at which
the `startTimer` collaborator operation is invoked (it carries the request
sent); `alreadyRunning` is the refusal path, which issues no write. -/
inductive StartOutcome where
  | alreadyRunning (entry : TimeEntry)
  | started (request : TimeEntryRequest) (projectWarned : Bool)
deriving DecidableEq

/-- `timerCommands.start` after the auth/workspace preconditions: find a
running entry (refuse if one exists), otherwise build the request, resolve or
create the project, and call `startTimer`.  `createProjectResult` is the
external `createProject` collaborator's response (`none` models its failure,
which the command degrades to a warning and no project). -/
def startModel (entries : List TimeEntry) (options : StartOptions)
    (projects : List Project) (createProjectResult : Option Project)
    (now : TimeStamp) (billableByDefault : Bool) : StartOutcome :=
  match entries.find? isRunningEntry with
  | some runningEntry => .alreadyRunning runningEntry
  | none =>
    let timeEntry : TimeEntryRequest :=
      { start := now
        description :=
          if strTruthy options.description then sanitizeInput (options.description.getD [])
          else []
        billable := options.billable.getD billableByDefault }
    if strTruthy options.project then
      match findProject projects (options.project.getD []) with
      | some project => .started { timeEntry with projectId := some project.id } false
      | none =>
        match createProjectResult with
        | some newProject => .started { timeEntry with projectId := some newProject.id } false
        | none => .started timeEntry true
    else
      .started timeEntry false

/-- Outcome of `timerCommands.stop`: either nothing was running, or the
`stopTimer` collaborator was invoked and the reported duration computed. -/
inductive StopOutcome where
  | nothingToStop
  | stopped (entry : TimeEntry) (durationMinutes : Int)
deriving DecidableEq

/-- `timerCommands.stop` after the preconditions: find a running entry (report
"nothing to stop" if none), else stop via the collaborator (whose response is
`stoppedEntry`) and report `Math.round((end - start) / 60000)` minutes. -/
def stopModel (entries : List TimeEntry) (stoppedEntry : TimeEntry) : StopOutcome :=
  match entries.find? isRunningEntry with
  | none => .nothingToStop
  | some _ =>
    .stopped stoppedEntry
      (jsRound60000 ((stoppedEntry.timeInterval.«end».getD { text := [], ms := 0 }).ms
        - stoppedEntry.timeInterval.start.ms))

/-- Outcome of `timerCommands.status` (read-only): idle with an optional
today's summary `(entry count, total minutes)`, or running with the elapsed
minutes. -/
inductive StatusOutcome where
  | idle (summary : Option (Nat × Int))
  | running (entry : TimeEntry) (elapsedMinutes : Int)
deriving DecidableEq

/-- Per-entry minutes `Math.round((end - start) / 60000)` as summed by the
idle summary of `status`. -/
def entryMinutes (e : TimeEntry) : Int :=
  jsRound60000 ((e.timeInterval.«end».getD { text := [], ms := 0 }).ms
    - e.timeInterval.start.ms)

/-- The filter of today's summary: start on the same calendar day (string
prefix comparison of the ISO timestamps) and a truthy end. -/
def sameDayClosed (today : JStr) (e : TimeEntry) : Bool :=
  dayOf e.timeInterval.start == today && endTruthy e.timeInterval.«end»

/-- `timerCommands.status` after the preconditions: report the running entry
with elapsed minutes, or report idle plus, when any exist, the count and the
summed minutes of today's closed entries. -/
def statusModel (entries : List TimeEntry) (now : TimeStamp) : StatusOutcome :=
  match entries.find? isRunningEntry with
  | some runningEntry =>
    .running runningEntry (jsRound60000 (now.ms - runningEntry.timeInterval.start.ms))
  | none =>
    let todayEntries := entries.filter (sameDayClosed (dayOf now))
    if todayEntries.length > 0 then
      .idle (some (todayEntries.length,
        todayEntries.foldl (fun total e => total + entryMinutes e) 0))
    else
      .idle none

/-- Options consumed by `timerCommands.add`. -/
structure AddOptions where
  description : Option JStr := none
  billable : Option Bool := none
  project : Option JStr := none
  startTime : Option JStr := none
deriving DecidableEq

/-- Outcome of `timerCommands.add`: the `createTimeEntry` collaborator is
always invoked with the built request; `projectWarned` records the
"project not found, adding without project" warning. -/
inductive AddOutcome where
  | created (request : TimeEntryRequest) (projectWarned : Bool)
deriving DecidableEq

/-- The start/end computation of `add`: with a truthy start-time option the
start anchor is resolved against "now" and the end is start plus the
duration; otherwise the entry ends now and starts duration minutes earlier. -/
def addTimes (durationMinutes : Int) (startTime : Option JStr) (nowMs : Int)
    (parseAbs : JStr → Int) : Int × Int :=
  if strTruthy startTime then
    let startMs := resolveAnchor (startTime.getD []) nowMs parseAbs
    (startMs, startMs + durationMinutes * 60000)
  else
    (nowMs - durationMinutes * 60000, nowMs)

/-- `timerCommands.add` after the preconditions and duration parsing (the
duration text is parsed by the external `parseDuration` of `src/lib/utils`;
the model receives the resulting minutes).  Start/end resolution via
`addTimes`; a supplied project is looked up but never created here, and a
miss degrades to a warning. -/
def addModel (durationMinutes : Int) (options : AddOptions)
    (projects : List Project) (nowMs : Int) (parseAbs : JStr → Int)
    (billableByDefault : Bool) : AddOutcome :=
  let times := addTimes durationMinutes options.startTime nowMs parseAbs
  let timeEntry : TimeEntryRequest :=
    { start := tsOfMs times.1
      «end» := some (tsOfMs times.2)
      description :=
        if strTruthy options.description then sanitizeInput (options.description.getD [])
        else []
      billable := options.billable.getD billableByDefault }
  let reqWarned : TimeEntryRequest × Bool :=
    if strTruthy options.project then
      match findProject projects (options.project.getD []) with
      | some project => ({ timeEntry with projectId := some project.id }, false)
      | none => (timeEntry, true)
    else
      (timeEntry, false)
  .created reqWarned.1 reqWarned.2

/-- Options consumed by `timerCommands.edit`. -/
structure EditOptions where
  description : Option JStr := none
  billable : Option Bool := none
  project : Option JStr := none
  startTime : Option JStr := none
  endTime : Option JStr := none
deriving DecidableEq

/-- The seed of the update payload: every field copied from the target entry,
with end/projectId/taskId included only when truthy on the target
(`tagIds` falls back to `[]` via `targetEntry.tagIds || []`). -/
def seedUpdate (targetEntry : TimeEntry) : TimeEntryRequest :=
  { start := targetEntry.timeInterval.start
    description := targetEntry.description
    billable := targetEntry.billable
    tagIds := some (targetEntry.tagIds.getD [])
    «end» := if endTruthy targetEntry.timeInterval.«end» then targetEntry.timeInterval.«end» else none
    projectId := if strTruthy targetEntry.projectId then targetEntry.projectId else none
    taskId := if strTruthy targetEntry.taskId then targetEntry.taskId else none }

/-- The payload/change-log builder of `edit`: seed from the target, then apply
each supplied override in the source's fixed order (description, billable,
project, start time, end time), recording a change label for each applied
override.  The returned flag records the "project not found, keeping current
project" warning, which leaves the payload untouched. -/
def buildUpdate (targetEntry : TimeEntry) (options : EditOptions)
    (projects : List Project) (nowMs : Int) (parseAbs : JStr → Int) :
    TimeEntryRequest × List JStr × Bool :=
  let u0 := seedUpdate targetEntry
  let s1 : TimeEntryRequest × List JStr :=
    match options.description with
    | some d => ({ u0 with description := sanitizeInput d }, [str "description"])
    | none => (u0, [])
  let s2 : TimeEntryRequest × List JStr :=
    match options.billable with
    | some b =>
      ({ s1.1 with billable := b },
        s1.2 ++ [if b then str "marked billable" else str "marked non-billable"])
    | none => s1
  let s3 : TimeEntryRequest × List JStr × Bool :=
    if strTruthy options.project then
      match findProject projects (options.project.getD []) with
      | some project =>
        ({ s2.1 with projectId := some project.id },
          s2.2 ++ [str "project → " ++ project.name], false)
      | none => (s2.1, s2.2, true)
    else
      (s2.1, s2.2, false)
  let s4 : TimeEntryRequest × List JStr :=
    if strTruthy options.startTime then
      let ms := resolveAnchor (options.startTime.getD [])
        targetEntry.timeInterval.start.ms parseAbs
      ({ s3.1 with start := tsOfMs ms }, s3.2.1 ++ [str "start time"])
    else
      (s3.1, s3.2.1)
  let s5 : TimeEntryRequest × List JStr :=
    if strTruthy options.endTime then
      let base :=
        if endTruthy targetEntry.timeInterval.«end» then
          (targetEntry.timeInterval.«end».getD { text := [], ms := 0 }).ms
        else nowMs
      let ms := resolveAnchor (options.endTime.getD []) base parseAbs
      ({ s4.1 with «end» := some (tsOfMs ms) }, s4.2 ++ [str "end time"])
    else
      s4
  (s5.1, s5.2, s3.2.2)

/-- Outcome of `timerCommands.edit`.  Only `updated` invokes the
`updateTimeEntry` collaborator (it carries the id'd target and the payload
sent); the other three constructors return before any write. -/
inductive EditOutcome where
  | entryNotFound
  | noCompletedEntries
  | noChanges (targetEntry : TimeEntry) (projectWarned : Bool)
  | updated (targetEntry : TimeEntry) (payload : TimeEntryRequest)
      (changes : List JStr) (projectWarned : Bool)
deriving DecidableEq

/-- The tail of `edit` once the target entry is located: build the payload and
change log, short-circuit with "no changes specified" on an empty change log,
else call `updateTimeEntry`. -/
def editWithTarget (targetEntry : TimeEntry) (options : EditOptions)
    (projects : List Project) (nowMs : Int) (parseAbs : JStr → Int) : EditOutcome :=
  let built := buildUpdate targetEntry options projects nowMs parseAbs
  if built.2.1.length == 0 then
    .noChanges targetEntry built.2.2
  else
    .updated targetEntry built.1 built.2.1 built.2.2

/-- `timerCommands.edit` after the preconditions: locate the target — the
sentinel (`entryId.toLowerCase() === 'last'`) selects the first entry of the
returned order with a truthy end, a literal id is looked up with
`entries.find` — then defer to `editWithTarget`. -/
def editModel (entries : List TimeEntry) (entryId : JStr) (options : EditOptions)
    (projects : List Project) (nowMs : Int) (parseAbs : JStr → Int) : EditOutcome :=
  if jsToLower entryId == str "last" then
    match (entries.filter (fun e => endTruthy e.timeInterval.«end»)).head? with
    | none => .noCompletedEntries
    | some targetEntry => editWithTarget targetEntry options projects nowMs parseAbs
  else
    match entries.find? (fun e => e.id == entryId) with
    | none => .entryNotFound
    | some targetEntry => editWithTarget targetEntry options projects nowMs parseAbs

/-- Helper: `find?` returns the head of the filtered list (first match wins). -/
theorem find?_eq_head_filter {α : Type} (p : α → Bool) (l : List α) :
    l.find? p = (l.filter p).head? := by
  induction l with
  | nil => rfl
  | cons a t ih =>
    cases h : p a with
    | true => rw [List.find?_cons_of_pos _ h, List.filter_cons_of_pos h, List.head?_cons]
    | false =>
      rw [List.find?_cons_of_neg _ (by simp [h]), List.filter_cons_of_neg (by simp [h]), ih]

/-- Helper: a left fold accumulating `+ f e` is the sum of the mapped list. -/
theorem foldl_add_eq_sum_map {α : Type} (f : α → Int) (l : List α) (a : Int) :
    l.foldl (fun total e => total + f e) a = a + (l.map f).sum := by
  induction l generalizing a with
  | nil => simp
  | cons h t ih => simp [ih]; ring

/-- A sample open entry (no end timestamp) used by witnesses. -/
def sampleOpenEntry : TimeEntry :=
  { id := str "e-open"
    description := str "open work"
    billable := false
    projectId := none
    taskId := none
    tagIds := none
    timeInterval :=
      { start := { text := str "2024-01-02T09:00:00.000Z", ms := 1704186000000 }
        «end» := none } }

/-- A sample closed entry with project/task/tags present, used by witnesses. -/
def sampleClosedEntry : TimeEntry :=
  { id := str "e-closed"
    description := str "closed work"
    billable := true
    projectId := some (str "p1")
    taskId := some (str "t1")
    tagIds := some [str "tag1"]
    timeInterval :=
      { start := { text := str "2024-01-02T08:00:00.000Z", ms := 1704182400000 }
        «end» := some { text := str "2024-01-02T08:45:00.000Z", ms := 1704185100000 } } }

/-- C1: if some entry of the fetched collection is open (truthiness test on
its end), `start` refuses: it returns `alreadyRunning` reporting an open
entry of the collection, and never reaches the `startTimer` call (only the
`started` constructor models that call), so no second open entry is created. -/
theorem start_refused_when_timer_open (entries : List TimeEntry)
    (options : StartOptions) (projects : List Project)
    (createProjectResult : Option Project) (now : TimeStamp)
    (billableByDefault : Bool)
    (h : ∃ e ∈ entries, isRunningEntry e = true) :
    ∃ r, startModel entries options projects createProjectResult now billableByDefault
        = .alreadyRunning r ∧ r ∈ entries ∧ isRunningEntry r = true := by
  have hs : (entries.find? isRunningEntry).isSome = true := List.find?_isSome.mpr h
  obtain ⟨r, hr⟩ := Option.isSome_iff_exists.mp hs
  refine ⟨r, ?_, List.mem_of_find?_eq_some hr, List.find?_some hr⟩
  unfold startModel
  rw [hr]

/-- Witness for C1 at a concrete collection holding one open entry. -/
theorem start_refused_when_timer_open_witness :
    ∃ r, startModel [sampleOpenEntry] {} [] none
          { text := str "2024-01-03T10:00:00.000Z", ms := 1704276000000 } false
        = .alreadyRunning r ∧ r ∈ [sampleOpenEntry] ∧ isRunningEntry r = true :=
  start_refused_when_timer_open [sampleOpenEntry] {} [] none
    { text := str "2024-01-03T10:00:00.000Z", ms := 1704276000000 } false
    ⟨sampleOpenEntry, List.mem_singleton.mpr rfl, rfl⟩

/-- C3: with zero overrides supplied, `edit` (once the target is located)
produces an empty change log, reports "no changes specified", and returns the
`noChanges` outcome — the `updateTimeEntry` collaborator (modelled solely by
the `updated` constructor) is never invoked. -/
theorem edit_zero_overrides_no_changes (targetEntry : TimeEntry)
    (projects : List Project) (nowMs : Int) (parseAbs : JStr → Int) :
    editWithTarget targetEntry {} projects nowMs parseAbs
      = .noChanges targetEntry false := rfl

/-- C10: the openness test of start/stop/status is JS truthiness of the end
field: an entry whose end is present but the empty string is classified as
the running entry exactly as when the end is absent, in all three commands. -/
theorem openness_is_end_truthiness (e : TimeEntry) (m : Int)
    (rest : List TimeEntry) (options : StartOptions) (projects : List Project)
    (createProjectResult : Option Project) (now : TimeStamp)
    (billableByDefault : Bool) (stoppedEntry : TimeEntry) (now2 : TimeStamp) :
    isRunningEntry { e with timeInterval := { e.timeInterval with «end» := some { text := [], ms := m } } } = true
    ∧ isRunningEntry { e with timeInterval := { e.timeInterval with «end» := none } } = true
    ∧ startModel ({ e with timeInterval := { e.timeInterval with «end» := some { text := [], ms := m } } } :: rest)
        options projects createProjectResult now billableByDefault
      = .alreadyRunning { e with timeInterval := { e.timeInterval with «end» := some { text := [], ms := m } } }
    ∧ startModel ({ e with timeInterval := { e.timeInterval with «end» := none } } :: rest)
        options projects createProjectResult now billableByDefault
      = .alreadyRunning { e with timeInterval := { e.timeInterval with «end» := none } }
    ∧ stopModel ({ e with timeInterval := { e.timeInterval with «end» := some { text := [], ms := m } } } :: rest) stoppedEntry
      = stopModel ({ e with timeInterval := { e.timeInterval with «end» := none } } :: rest) stoppedEntry
    ∧ statusModel ({ e with timeInterval := { e.timeInterval with «end» := some { text := [], ms := m } } } :: rest) now2
      = .running { e with timeInterval := { e.timeInterval with «end» := some { text := [], ms := m } } }
          (jsRound60000 (now2.ms - e.timeInterval.start.ms))
    ∧ statusModel ({ e with timeInterval := { e.timeInterval with «end» := none } } :: rest) now2
      = .running { e with timeInterval := { e.timeInterval with «end» := none } }
          (jsRound60000 (now2.ms - e.timeInterval.start.ms)) := by
  refine ⟨rfl, rfl, rfl, rfl, rfl, rfl, rfl⟩

/-- C2: an edit whose only override is a description "x" yields the payload
seeded from the existing entry with only the description replaced (by the
sanitized override, which for "x" is "x" itself), a change log of exactly
["description"], and an `updateTimeEntry` call with that payload: start,
billable and tagIds are copied from the existing entry, and end, projectId
and taskId are copied whenever present (truthy) on it. -/
theorem edit_description_only_override (targetEntry : TimeEntry)
    (projects : List Project) (nowMs : Int) (parseAbs : JStr → Int) :
    ∃ payload,
      buildUpdate targetEntry { description := some (str "x") } projects nowMs parseAbs
        = (payload, [str "description"], false)
      ∧ editWithTarget targetEntry { description := some (str "x") } projects nowMs parseAbs
        = .updated targetEntry payload [str "description"] false
      ∧ payload.description = str "x"
      ∧ payload.start = targetEntry.timeInterval.start
      ∧ payload.billable = targetEntry.billable
      ∧ payload.tagIds = some (targetEntry.tagIds.getD [])
      ∧ (∀ ts, targetEntry.timeInterval.«end» = some ts → ts.text ≠ [] →
          payload.«end» = some ts)
      ∧ (targetEntry.timeInterval.«end» = none → payload.«end» = none)
      ∧ (∀ pid, targetEntry.projectId = some pid → pid ≠ [] → payload.projectId = some pid)
      ∧ (∀ tid, targetEntry.taskId = some tid → tid ≠ [] → payload.taskId = some tid) := by
  refine ⟨{ seedUpdate targetEntry with description := str "x" },
    rfl, rfl, rfl, rfl, rfl, rfl, ?_, ?_, ?_, ?_⟩
  · intro ts hts hne
    show (seedUpdate targetEntry).«end» = some ts
    unfold seedUpdate
    simp only [hts]
    simp [endTruthy, hne]
  · intro hnone
    show (seedUpdate targetEntry).«end» = none
    unfold seedUpdate
    simp only [hnone]
    simp [endTruthy]
  · intro pid hpid hne
    show (seedUpdate targetEntry).projectId = some pid
    unfold seedUpdate
    simp only [hpid]
    simp [strTruthy, hne]
  · intro tid htid hne
    show (seedUpdate targetEntry).taskId = some tid
    unfold seedUpdate
    simp only [htid]
    simp [strTruthy, hne]

/-- Witness for C2 at a concrete closed entry with end, project and task set. -/
theorem edit_description_only_override_witness :
    ∃ payload,
      buildUpdate sampleClosedEntry { description := some (str "x") } [] 0 (fun _ => 0)
        = (payload, [str "description"], false)
      ∧ payload.description = str "x"
      ∧ payload.«end» = some { text := str "2024-01-02T08:45:00.000Z", ms := 1704185100000 }
      ∧ payload.projectId = some (str "p1")
      ∧ payload.taskId = some (str "t1") := by
  obtain ⟨payload, h1, _h2, h3, _h4, _h5, _h6, h7, _h8, h9, h10⟩ :=
    edit_description_only_override sampleClosedEntry [] 0 (fun _ => 0)
  exact ⟨payload, h1, h3, h7 _ rfl (by decide), h9 _ rfl (by decide), h10 _ rfl (by decide)⟩

/-- C4: an id that is not the (case-insensitive) sentinel "last" and matches
no entry makes `edit` fail with the entry-not-found outcome, which precedes
any write; and for the sentinel "last" the command targets the first entry of
the returned order with a truthy end timestamp. -/
theorem edit_target_selection (entries : List TimeEntry) (options : EditOptions)
    (projects : List Project) (nowMs : Int) (parseAbs : JStr → Int) :
    (∀ entryId, jsToLower entryId ≠ str "last" →
      entries.find? (fun e => e.id == entryId) = none →
      editModel entries entryId options projects nowMs parseAbs = .entryNotFound)
    ∧ (∀ t, (entries.filter (fun e => endTruthy e.timeInterval.«end»)).head? = some t →
      editModel entries (str "last") options projects nowMs parseAbs
        = editWithTarget t options projects nowMs parseAbs) := by
  constructor
  · intro entryId hid hfind
    unfold editModel
    rw [beq_eq_false_iff_ne.mpr hid]
    simp [hfind]
  · intro t ht
    unfold editModel
    rw [ht]
    rfl

/-- Witness for C4: an unknown id is refused, and "last" targets the first
closed entry of the returned order. -/
theorem edit_target_selection_witness :
    editModel [sampleOpenEntry, sampleClosedEntry] (str "zzz") {} [] 0 (fun _ => 0)
      = .entryNotFound
    ∧ editModel [sampleOpenEntry, sampleClosedEntry] (str "last") {} [] 0 (fun _ => 0)
      = editWithTarget sampleClosedEntry {} [] 0 (fun _ => 0) := by
  obtain ⟨h1, h2⟩ := edit_target_selection [sampleOpenEntry, sampleClosedEntry] {} [] 0 (fun _ => 0)
  exact ⟨h1 (str "zzz") (by decide) (by decide), h2 sampleClosedEntry (by decide)⟩

/-- A second sample closed entry on the same calendar day (30 minutes). -/
def sampleClosedEntry2 : TimeEntry :=
  { id := str "e-closed2"
    description := str "more work"
    billable := false
    projectId := none
    taskId := none
    tagIds := none
    timeInterval :=
      { start := { text := str "2024-01-02T09:00:00.000Z", ms := 1704186000000 }
        «end» := some { text := str "2024-01-02T09:30:00.000Z", ms := 1704187800000 } } }

/-- A sample "now" on the same calendar day as the sample closed entries. -/
def sampleStatusNow : TimeStamp :=
  { text := str "2024-01-02T10:00:00.000Z", ms := 1704189600000 }

/-- C5: when no entry of the collection is open, `status` reports idle, and
the today's-summary total is the sum, over the entries whose start falls on
the same calendar day as "now" (ISO-prefix comparison) and whose end is
truthy, of the per-entry `Math.round((end - start) / 60000)` minutes —
per-entry rounding before summation. -/
theorem status_idle_today_summary (entries : List TimeEntry) (now : TimeStamp)
    (h : ∀ e ∈ entries, isRunningEntry e = false) :
    statusModel entries now =
      .idle (if (entries.filter (sameDayClosed (dayOf now))).length > 0 then
          some ((entries.filter (sameDayClosed (dayOf now))).length,
            ((entries.filter (sameDayClosed (dayOf now))).map entryMinutes).sum)
        else none) := by
  have hf : entries.find? isRunningEntry = none :=
    List.find?_eq_none.mpr (fun x hx => by simp [h x hx])
  unfold statusModel
  rw [hf]
  simp only [foldl_add_eq_sum_map, zero_add]
  split <;> rfl

/-- Witness for C5: two closed 45- and 30-minute entries on now's day sum to
75 minutes. -/
theorem status_idle_today_summary_witness :
    statusModel [sampleClosedEntry, sampleClosedEntry2] sampleStatusNow
      = .idle (some (2, 75)) := by
  have h := status_idle_today_summary [sampleClosedEntry, sampleClosedEntry2]
    sampleStatusNow (by decide)
  rw [h]
  decide

/-- The request `add` hands to the `createTimeEntry` collaborator (projection
out of the single `created` outcome). -/
def addRequest (durationMinutes : Int) (options : AddOptions)
    (projects : List Project) (nowMs : Int) (parseAbs : JStr → Int)
    (billableByDefault : Bool) : TimeEntryRequest :=
  match addModel durationMinutes options projects nowMs parseAbs billableByDefault with
  | .created req _ => req

/-- Helper: the created request's start/end are the `addTimes` pair,
independently of the project-resolution branch. -/
theorem addRequest_start_end (durationMinutes : Int) (options : AddOptions)
    (projects : List Project) (nowMs : Int) (parseAbs : JStr → Int)
    (billableByDefault : Bool) :
    (addRequest durationMinutes options projects nowMs parseAbs billableByDefault).start
        = tsOfMs (addTimes durationMinutes options.startTime nowMs parseAbs).1
    ∧ (addRequest durationMinutes options projects nowMs parseAbs billableByDefault).«end»
        = some (tsOfMs (addTimes durationMinutes options.startTime nowMs parseAbs).2)
    ∧ ∃ warned, addModel durationMinutes options projects nowMs parseAbs billableByDefault
        = .created (addRequest durationMinutes options projects nowMs parseAbs billableByDefault)
            warned := by
  unfold addRequest addModel
  by_cases h2 : strTruthy options.project
  · rcases hf : findProject projects (options.project.getD []) with _ | p <;>
      simp [h2, hf]
  · simp [h2]

/-- C6: `add` always creates a closed entry whose end minus start is exactly
the duration in minutes; without a (truthy) start-time option, end is the
resolution-time "now" and start is now minus the duration; with one, start is
the resolved anchor and end is start plus the duration. -/
theorem add_duration_start_end (durationMinutes : Int) (options : AddOptions)
    (projects : List Project) (nowMs : Int) (parseAbs : JStr → Int)
    (billableByDefault : Bool) :
    ∃ warned endTs,
      addModel durationMinutes options projects nowMs parseAbs billableByDefault
        = .created (addRequest durationMinutes options projects nowMs parseAbs billableByDefault)
            warned
      ∧ (addRequest durationMinutes options projects nowMs parseAbs billableByDefault).«end»
          = some endTs
      ∧ endTs.ms
          - (addRequest durationMinutes options projects nowMs parseAbs billableByDefault).start.ms
          = durationMinutes * 60000
      ∧ (strTruthy options.startTime = false →
          endTs = tsOfMs nowMs
          ∧ (addRequest durationMinutes options projects nowMs parseAbs billableByDefault).start
              = tsOfMs (nowMs - durationMinutes * 60000))
      ∧ (strTruthy options.startTime = true →
          (addRequest durationMinutes options projects nowMs parseAbs billableByDefault).start
              = tsOfMs (resolveAnchor (options.startTime.getD []) nowMs parseAbs)
          ∧ endTs = tsOfMs (resolveAnchor (options.startTime.getD []) nowMs parseAbs
              + durationMinutes * 60000)) := by
  obtain ⟨hstart, hend, warned, hmodel⟩ :=
    addRequest_start_end durationMinutes options projects nowMs parseAbs billableByDefault
  refine ⟨warned, tsOfMs (addTimes durationMinutes options.startTime nowMs parseAbs).2,
    hmodel, hend, ?_, ?_, ?_⟩
  · rw [hstart]
    by_cases h1 : strTruthy options.startTime <;> simp [addTimes, tsOfMs, h1]
  · intro h1
    have h1' : ¬ strTruthy options.startTime = true := by simp [h1]
    constructor
    · simp [addTimes, h1']
    · rw [hstart]; simp [addTimes, h1']
  · intro h1
    constructor
    · rw [hstart]; simp [addTimes, h1]
    · simp [addTimes, h1]

/-- Witness for C6 at duration 60 with no start-time option. -/
theorem add_duration_start_end_witness :
    ∃ warned endTs,
      addModel 60 {} [] 1704189600000 (fun _ => 0) false
        = .created (addRequest 60 {} [] 1704189600000 (fun _ => 0) false) warned
      ∧ (addRequest 60 {} [] 1704189600000 (fun _ => 0) false).«end» = some endTs
      ∧ endTs.ms - (addRequest 60 {} [] 1704189600000 (fun _ => 0) false).start.ms = 60 * 60000
      ∧ endTs = tsOfMs 1704189600000
      ∧ (addRequest 60 {} [] 1704189600000 (fun _ => 0) false).start
          = tsOfMs (1704189600000 - 60 * 60000) := by
  obtain ⟨warned, endTs, ha, hb, hc, hd, _⟩ :=
    add_duration_start_end 60 {} [] 1704189600000 (fun _ => 0) false
  obtain ⟨hd1, hd2⟩ := hd rfl
  exact ⟨warned, endTs, ha, hb, hc, hd1, hd2⟩

/-- Helper: an absent option is falsy. -/
@[simp] theorem strTruthy_none : strTruthy none = false := rfl

/-- Helper: a project override that matches nothing leaves the seeded payload
unchanged and contributes no change label, only the warning flag. -/
theorem buildUpdate_project_miss (targetEntry : TimeEntry) (q : JStr)
    (projects : List Project) (nowMs : Int) (parseAbs : JStr → Int)
    (hq : q ≠ []) (hnp : findProject projects q = none) :
    buildUpdate targetEntry { project := some q } projects nowMs parseAbs
      = (seedUpdate targetEntry, [], true) := by
  have hqt : strTruthy (some q) = true := by
    cases q with
    | nil => exact absurd rfl hq
    | cons a t => rfl
  unfold buildUpdate
  simp [hqt, hnp]

/-- C8: project-override resolution is "first match wins" over the predicate
"name contains the override case-insensitively, or id equals it exactly"
(`findProject` equals the head of the filtered project list); and when no
project matches, `edit`'s builder leaves the seeded project assignment
untouched, adds no change label, and raises only a warning flag, while `add`
proceeds with a projectless request and the warning flag. -/
theorem project_override_resolution (projects : List Project) (q : JStr) :
    findProject projects q
      = (projects.filter (fun p =>
          containsSub (jsToLower q) (jsToLower p.name) || p.id == q)).head?
    ∧ (∀ targetEntry nowMs parseAbs, q ≠ [] → findProject projects q = none →
        buildUpdate targetEntry { project := some q } projects nowMs parseAbs
          = (seedUpdate targetEntry, [], true))
    ∧ (∀ durationMinutes descr bill st nowMs parseAbs billableByDefault,
        q ≠ [] → findProject projects q = none →
        ∃ req, addModel durationMinutes
            { description := descr, billable := bill, project := some q, startTime := st }
            projects nowMs parseAbs billableByDefault = .created req true
          ∧ req.projectId = none) := by
  refine ⟨find?_eq_head_filter (projMatch q) projects, ?_, ?_⟩
  · intro targetEntry nowMs parseAbs hq hnp
    exact buildUpdate_project_miss targetEntry q projects nowMs parseAbs hq hnp
  · intro durationMinutes descr bill st nowMs parseAbs billableByDefault hq hnp
    have hqt : strTruthy (some q) = true := by
      cases q with
      | nil => exact absurd rfl hq
      | cons a t => rfl
    unfold addModel
    simp [hqt, hnp]

/-- Witness for C8: a two-project list, an override matching neither. -/
theorem project_override_resolution_witness :
    findProject [{ id := str "pa", name := str "Alpha" },
        { id := str "pb", name := str "Beta" }] (str "zzz")
      = ([{ id := str "pa", name := str "Alpha" },
          { id := str "pb", name := str "Beta" }].filter (fun p =>
            containsSub (jsToLower (str "zzz")) (jsToLower p.name) || p.id == str "zzz")).head?
    ∧ buildUpdate sampleClosedEntry { project := some (str "zzz") }
        [{ id := str "pa", name := str "Alpha" }, { id := str "pb", name := str "Beta" }]
        0 (fun _ => 0)
      = (seedUpdate sampleClosedEntry, [], true)
    ∧ ∃ req, addModel 60 { project := some (str "zzz") }
        [{ id := str "pa", name := str "Alpha" }, { id := str "pb", name := str "Beta" }]
        0 (fun _ => 0) false = .created req true
      ∧ req.projectId = none := by
  obtain ⟨h1, h2, h3⟩ := project_override_resolution
    [{ id := str "pa", name := str "Alpha" }, { id := str "pb", name := str "Beta" }] (str "zzz")
  exact ⟨h1, h2 sampleClosedEntry 0 (fun _ => 0) (by decide) (by decide),
    h3 60 none none none 0 (fun _ => 0) false (by decide) (by decide)⟩

/-- C9: when the only override supplied to `edit` is a project that matches
no workspace project, the change log stays empty, so the command reports
"no changes specified" (with the project warning) and never reaches the
`updateTimeEntry` call. -/
theorem edit_unmatched_project_only (entries : List TimeEntry) (entryId : JStr)
    (targetEntry : TimeEntry) (q : JStr) (projects : List Project) (nowMs : Int)
    (parseAbs : JStr → Int)
    (hid : jsToLower entryId ≠ str "last")
    (hfind : entries.find? (fun e => e.id == entryId) = some targetEntry)
    (hq : q ≠ [])
    (hnp : findProject projects q = none) :
    editModel entries entryId { project := some q } projects nowMs parseAbs
      = .noChanges targetEntry true := by
  unfold editModel
  rw [beq_eq_false_iff_ne.mpr hid]
  simp only [Bool.false_eq_true, if_false, hfind]
  unfold editWithTarget
  rw [buildUpdate_project_miss targetEntry q projects nowMs parseAbs hq hnp]
  rfl

/-- Witness for C9 at a concrete entry and an unmatched project override. -/
theorem edit_unmatched_project_only_witness :
    editModel [sampleClosedEntry] (str "e-closed") { project := some (str "zzz") }
        [{ id := str "pa", name := str "Alpha" }] 0 (fun _ => 0)
      = .noChanges sampleClosedEntry true :=
  edit_unmatched_project_only [sampleClosedEntry] (str "e-closed") sampleClosedEntry
    (str "zzz") [{ id := str "pa", name := str "Alpha" }] 0 (fun _ => 0)
    (by decide) (by decide) (by decide) (by decide)

/-- Helper: a digit character has value at most 9. -/
theorem digitVal_le_of_isDig (c : Char) (hc : isDig c = true) : digitVal c ≤ 9 := by
  unfold isDig at hc
  simp only [Bool.and_eq_true, decide_eq_true_eq] at hc
  unfold digitVal
  omega

/-- Helper: the capture groups of the HH:MM regex are at most two digits. -/
theorem matchHHMM_le (s : JStr) (h m : Nat) (hs : matchHHMM s = some (h, m)) :
    h ≤ 99 ∧ m ≤ 99 := by
  rcases s with _ | ⟨c1, _ | ⟨c2, _ | ⟨c3, _ | ⟨c4, _ | ⟨c5, _ | ⟨c6, rest⟩⟩⟩⟩⟩⟩
  · simp [matchHHMM] at hs
  · simp [matchHHMM] at hs
  · simp [matchHHMM] at hs
  · simp [matchHHMM] at hs
  · simp only [matchHHMM] at hs
    by_cases hc : (isDig c1 && (c2 == ':') && isDig c3 && isDig c4) = true
    · rw [if_pos hc] at hs
      simp only [Option.some.injEq, Prod.mk.injEq] at hs
      obtain ⟨hh, hm⟩ := hs
      simp only [Bool.and_eq_true] at hc
      have b1 := digitVal_le_of_isDig c1 hc.1.1.1
      have b3 := digitVal_le_of_isDig c3 hc.1.2
      have b4 := digitVal_le_of_isDig c4 hc.2
      omega
    · rw [if_neg hc] at hs
      simp at hs
  · simp only [matchHHMM] at hs
    by_cases hc : (isDig c1 && isDig c2 && (c3 == ':') && isDig c4 && isDig c5) = true
    · rw [if_pos hc] at hs
      simp only [Option.some.injEq, Prod.mk.injEq] at hs
      obtain ⟨hh, hm⟩ := hs
      simp only [Bool.and_eq_true] at hc
      have b1 := digitVal_le_of_isDig c1 hc.1.1.1.1
      have b2 := digitVal_le_of_isDig c2 hc.1.1.1.2
      have b4 := digitVal_le_of_isDig c4 hc.1.2
      have b5 := digitVal_le_of_isDig c5 hc.2
      omega
    · rw [if_neg hc] at hs
      simp at hs
  · simp [matchHHMM] at hs

/-- C7: a text matching the HH:MM regex resolves to midnight of the reference
date's day plus the given hours and minutes; when the values are in range
(hour below 24, minute below 60) the result lies on the reference day at that
wall-clock position with seconds and milliseconds zero; the parse does not
range-check the values, and any matched pair amounting to a full day or more
rolls the result over to a different (adjacent later) day. -/
theorem anchor_hhmm_resolution (s : JStr) (h m : Nat) (referenceMs : Int)
    (parseAbs : JStr → Int) (hs : matchHHMM s = some (h, m)) :
    resolveAnchor s referenceMs parseAbs
        = dayIndex referenceMs * 86400000 + (h : Int) * 3600000 + (m : Int) * 60000
    ∧ (h < 24 → m < 60 →
        dayIndex (resolveAnchor s referenceMs parseAbs) = dayIndex referenceMs
        ∧ hourOfMs (resolveAnchor s referenceMs parseAbs) = (h : Int)
        ∧ minuteOfMs (resolveAnchor s referenceMs parseAbs) = (m : Int)
        ∧ secondOfMs (resolveAnchor s referenceMs parseAbs) = 0
        ∧ msPartOfMs (resolveAnchor s referenceMs parseAbs) = 0)
    ∧ (24 * 60 ≤ 60 * h + m →
        dayIndex (resolveAnchor s referenceMs parseAbs) ≠ dayIndex referenceMs) := by
  obtain ⟨hb1, hb2⟩ := matchHHMM_le s h m hs
  have hr : resolveAnchor s referenceMs parseAbs = setHoursModel referenceMs h m := by
    unfold resolveAnchor
    rw [hs]
  rw [hr]
  unfold setHoursModel dayIndex hourOfMs minuteOfMs secondOfMs msPartOfMs
  refine ⟨?_, fun h24 m60 => ⟨?_, ?_, ?_, ?_, ?_⟩, fun hroll => ?_⟩
  all_goals omega

/-- Witness for C7 at "09:30" against a reference instant on 2024-01-02. -/
theorem anchor_hhmm_resolution_witness :
    resolveAnchor (str "09:30") 1704189600000 (fun _ => 0)
        = dayIndex 1704189600000 * 86400000
          + ((9 : Nat) : Int) * 3600000 + ((30 : Nat) : Int) * 60000
    ∧ dayIndex (resolveAnchor (str "09:30") 1704189600000 (fun _ => 0))
        = dayIndex 1704189600000
    ∧ hourOfMs (resolveAnchor (str "09:30") 1704189600000 (fun _ => 0)) = ((9 : Nat) : Int)
    ∧ minuteOfMs (resolveAnchor (str "09:30") 1704189600000 (fun _ => 0)) = ((30 : Nat) : Int)
    ∧ secondOfMs (resolveAnchor (str "09:30") 1704189600000 (fun _ => 0)) = 0
    ∧ msPartOfMs (resolveAnchor (str "09:30") 1704189600000 (fun _ => 0)) = 0 := by
  obtain ⟨h1, h2, _⟩ :=
    anchor_hhmm_resolution (str "09:30") 9 30 1704189600000 (fun _ => 0) (by decide)
  obtain ⟨a, b, c, d, e⟩ := h2 (by decide) (by decide)
  exact ⟨h1, a, b, c, d, e⟩
